import Mathlib

/-!
Verification development for the spawn/claim coordination core of the
`shivu` chat-collectible bot (`shivu/__main__.py`).

The embedding is shallow: each Python handler becomes a pure Lean function
on an explicit state record.  Python dictionaries keyed by the chat id
(some by `chat_id`, some by `str(chat_id)`; the conversion is injective so
both are modelled with the same `Int` key) become functions
`Int → Option α`; a missing key is `none`.  Python strings become
`List Char` (`Str`), so that all text operations are structurally
recursive and computable by the kernel.  Randomness (`random.uniform`,
`random.choice`) is modelled by oracle parameters: the drawn rational and
the chosen index.  Calls into the messaging/persistence layer are
modelled as trace operations (`TraceOp`); fallible external calls take an
`Except` parameter describing their outcome.  The cooperative asyncio
scheduler runs a task uninterrupted between `await` points; code regions
that contain no `await` are therefore embedded as single atomic steps.
-/

namespace Shivu

/-! ### Text primitives (Python `str` semantics over `List Char`) -/

/-- Python strings, modelled as lists of characters. -/
abbrev Str := List Char

/-- Python `str.lower()` (ASCII case folding, as used on the guess text
and the character name). -/
def toLowerStr (s : Str) : Str := s.map Char.toLower

/-- Python `' '.join(args)`: concatenate the argument tokens with single
spaces (source: `guess`, `' '.join(context.args)`). -/
def joinArgs : List Str → Str
  | [] => []
  | [a] => a
  | a :: rest => a ++ ' ' :: joinArgs rest

/-- Helper for `pySplit`: accumulate the current token (reversed) while
scanning the text. -/
def splitWsAux : List Char → List Char → List Str
  | [], acc => if acc = [] then [] else [acc.reverse]
  | c :: rest, acc =>
    if c.isWhitespace then
      (if acc = [] then splitWsAux rest [] else acc.reverse :: splitWsAux rest [])
    else splitWsAux rest (c :: acc)

/-- Python `str.split()` with no argument: split on runs of whitespace and
drop empty tokens. -/
def pySplit (s : Str) : List Str := splitWsAux s []

/-- Lexicographic strict order on `Str` by code point, matching Python
string comparison as used by `sorted`. -/
def strLt : Str → Str → Bool
  | [], [] => false
  | [], _ :: _ => true
  | _ :: _, [] => false
  | a :: as, b :: bs => if a = b then strLt as bs else decide (a < b)

/-- Insert a token into an already sorted token list. -/
def sortInsert (x : Str) : List Str → List Str
  | [] => [x]
  | y :: ys => if strLt y x then y :: sortInsert x ys else x :: y :: ys

/-- Python `sorted` on a list of strings (insertion sort; only equality of
the sorted lists is ever consumed, so any correct sort is adequate). -/
def sortTokens : List Str → List Str
  | [] => []
  | x :: xs => sortInsert x (sortTokens xs)

/-- Boolean prefix test used by the substring test. -/
def isPrefixOfB : Str → Str → Bool
  | [], _ => true
  | _ :: _, [] => false
  | a :: as, b :: bs => a = b && isPrefixOfB as bs

/-- Python `pat in s` substring containment. -/
def containsSub (pat : Str) : Str → Bool
  | [] => isPrefixOfB pat []
  | c :: rest => isPrefixOfB pat (c :: rest) || containsSub pat rest

/-- The literal `"()"` rejected by the guess guard. -/
def parSeq : Str := "()".data

/-- The literal `"&"` rejected by the guess guard. -/
def ampSeq : Str := "&".data

/-! ### Data model -/

/-- A catalog character document (`Catalog.fetchAll` element shape as
consumed by `__main__.py`: `id`, `name`, `anime`, `rarity`, `is_video`,
`removed`; the media reference plays no role in the verified logic). -/
structure Character where
  id : Nat
  name : Str
  anime : Str
  rarity : Str
  isVideo : Bool
  removed : Bool
deriving DecidableEq

/-- Fallback character for the (unreachable in source) empty-pick cases of
`List.getD`. -/
def defaultCharacter : Character := ⟨0, [], [], [], false, false⟩

/-- A document of `group_rarity_collection`: the rarity tag `rarity_emoji`
is exclusively granted to chat `chat_id`. -/
structure GrantDoc where
  chatId : Int
  rarityEmoji : Str
deriving DecidableEq

/-- Per-rarity global policy entry (`settings['rarities'][emoji]`); both
fields are read with `.get(..., default)` in the source, hence `Option`. -/
structure RarityData where
  enabled : Option Bool
  chance : Option ℚ
deriving DecidableEq

/-- Global spawn settings (`get_spawn_settings()`), an association list of
rarity tag to policy entry; list order models Python dict insertion
order. -/
structure SpawnSettings where
  rarities : List (Str × RarityData)
deriving DecidableEq

/-- Per-chat exclusive rarity override (`get_group_exclusive(chat_id)`):
keys `rarity_emoji` and optional `chance`. -/
structure GroupSetting where
  rarityEmoji : Str
  chance : Option ℚ
deriving DecidableEq

/-- Source constant `MESSAGE_FREQUENCY = 40`. -/
def MESSAGE_FREQUENCY : Nat := 40

/-- Source constant `DESPAWN_TIME = 180` (seconds; timing itself is not
modelled, only the despawn step that fires afterwards). -/
def DESPAWN_TIME : Nat := 180

/-- Source constant `AMV_ALLOWED_GROUP_ID = -1003100468240`. -/
def AMV_ALLOWED_GROUP_ID : Int := -1003100468240

/-- The reserved video rarity tag `'🎥'`. -/
def videoTag : Str := "🎥".data

/-- Leading token of a rarity label:
`char_rarity.split(' ')[0] if ' ' in char_rarity else char_rarity`. -/
def rarityEmoji (r : Str) : Str :=
  if r.contains ' ' then r.takeWhile (fun c => c ≠ ' ') else r

/-! ### Allow-filter (`is_character_allowed`) -/

/-- Shallow embedding of `is_character_allowed(character, chat_id)`.
`grants = none` models `group_rarity_collection is None` (rarity system
not loaded); `settings = none` collapses `spawn_settings_collection is
None` and `get_spawn_settings()` returning a falsy value.  The `chatId ≠ 0`
test models the Python truthiness guard `... and chat_id`.  Database reads
are pure here; the source's blanket `except` handlers only matter for
exceptions of the external driver, which the pure model cannot raise. -/
def isCharacterAllowed (ch : Character) (chatId : Int)
    (grants : Option (List GrantDoc)) (settings : Option SpawnSettings) : Bool :=
  if ch.removed then false
  else
    let emoji := rarityEmoji ch.rarity
    if ch.isVideo ∧ emoji = videoTag then
      decide (chatId = AMV_ALLOWED_GROUP_ID)
    else
      let exclusiveVerdict : Option Bool :=
        match grants with
        | some gs =>
          if chatId ≠ 0 then
            if (gs.find? (fun d => d.chatId = chatId ∧ d.rarityEmoji = emoji)).isSome then
              some true
            else if (gs.find? (fun d => d.rarityEmoji = emoji ∧ d.chatId ≠ chatId)).isSome then
              some false
            else none
          else none
        | none => none
      match exclusiveVerdict with
      | some b => b
      | none =>
        match settings with
        | some s =>
          if s.rarities ≠ [] then
            match s.rarities.lookup emoji with
            | some rd => rd.enabled.getD true
            | none => true
          else true
        | none => true

/-- Spec-side helper: the tag is marked disabled in global policy. -/
def disabledIn (s : SpawnSettings) (emoji : Str) : Bool :=
  match s.rarities.lookup emoji with
  | some rd => rd.enabled.getD true = false
  | none => false

/-- Spec-side helper: an exclusive grant exists for this exact
(chat, tag) pair. -/
def hasGrantFor (gs : List GrantDoc) (chatId : Int) (emoji : Str) : Bool :=
  (gs.find? (fun d => d.chatId = chatId ∧ d.rarityEmoji = emoji)).isSome

/-- Spec-side helper: the tag is exclusively granted to a different
chat. -/
def grantedElsewhere (gs : List GrantDoc) (chatId : Int) (emoji : Str) : Bool :=
  (gs.find? (fun d => d.rarityEmoji = emoji ∧ d.chatId ≠ chatId)).isSome

/-- Exclusion condition written from the words of the specification
(§4.3): removed, or reserved-tag video outside the designated chat, or
globally disabled without an exclusive grant for this exact pair, or
exclusively granted to a different chat. -/
def claimExcludes (ch : Character) (chatId : Int) (gs : List GrantDoc)
    (s : SpawnSettings) : Bool :=
  ch.removed
  || (ch.isVideo && rarityEmoji ch.rarity = videoTag && chatId ≠ AMV_ALLOWED_GROUP_ID)
  || (disabledIn s (rarityEmoji ch.rarity) && !(hasGrantFor gs chatId (rarityEmoji ch.rarity)))
  || grantedElsewhere gs chatId (rarityEmoji ch.rarity)

/-! ### Per-chat shared state -/

/-- The global per-chat dictionaries of `__main__.py`.  `firstCorrectGuesses`
is the `claimedBy` field of the specification; `lastCharacters` is the
active spawn; `spawnMessageLinks` stores the permalink, derived from chat
identity and message handle, modelled by that pair. -/
structure SpawnState where
  messageCounts : Int → Option Nat
  currentlySpawning : Int → Option Bool
  sentCharacters : Int → Option (List Nat)
  lastCharacters : Int → Option Character
  firstCorrectGuesses : Int → Option Int
  spawnMessages : Int → Option Nat
  spawnMessageLinks : Int → Option (Int × Nat)

/-- Point update of a keyed dictionary; `upd f c none` models `pop`. -/
def upd {α : Type} (f : Int → Option α) (c : Int) (v : Option α) : Int → Option α :=
  fun x => if x = c then v else f x

/-- The empty state (all dictionaries empty). -/
def emptyState : SpawnState :=
  ⟨fun _ => none, fun _ => none, fun _ => none, fun _ => none,
   fun _ => none, fun _ => none, fun _ => none⟩

/-! ### Trace operations -/

/-- Tags of the distinct response messages the guess handler can reply
with (the exact decorated text is irrelevant to the verified logic). -/
inductive ReplyTag
  | noSpawnYet | alreadyGrabbed | providePrompt | badWords | grabSuccess | wrongName
deriving DecidableEq

/-- Observable operations of a handler run: per-chat lock usage, accesses
to the shared scheduler/claim fields, task dispatches, and external
messaging/persistence effects.  Database mutations of the accept path are
abstracted to coarse write markers (their document contents decide no
claim). -/
inductive TraceOp
  | lockAcquire (chatId : Int)
  | lockRelease (chatId : Int)
  | readCount (chatId : Int)
  | writeCount (chatId : Int) (v : Nat)
  | readSpawning (chatId : Int)
  | writeSpawning (chatId : Int) (b : Bool)
  | writeClaimedBy (chatId : Int) (userId : Int)
  | dispatchSpawn (chatId : Int)
  | dispatchDespawn (chatId : Int)
  | postSpawnMessage (chatId : Int)
  | postMissedNotice (chatId : Int) (characterId : Nat)
  | deleteMessage (chatId : Int) (messageId : Nat)
  | dbWriteUser (userId : Int)
  | dbWriteGroupUser (userId chatId : Int)
  | dbWriteTopGroups (chatId : Int)
  | sendReply (tag : ReplyTag)
deriving DecidableEq

/-- The chat whose shared scheduler/claim state an operation touches, if
any. -/
def sharedAccessChat : TraceOp → Option Int
  | .readCount c => some c
  | .writeCount c _ => some c
  | .readSpawning c => some c
  | .writeSpawning c _ => some c
  | .writeClaimedBy c _ => some c
  | _ => none

/-- Check that every access to shared per-chat scheduler/claim state in an
operation trace happens while that chat's exclusive lock is held. -/
def lockCheckAux : List TraceOp → Option Int → Bool
  | [], _ => true
  | op :: rest, held =>
    match op with
    | .lockAcquire c => (held = none) && lockCheckAux rest (some c)
    | .lockRelease c => (held = some c) && lockCheckAux rest none
    | _ =>
      match sharedAccessChat op with
      | some c => (held = some c) && lockCheckAux rest held
      | none => lockCheckAux rest held

/-- Top-level lock discipline check for a trace (no lock held initially). -/
def lockCheck (ops : List TraceOp) : Bool := lockCheckAux ops none

/-- Operations with an external or persistent effect (messages sent or
deleted, database writes, tasks dispatched). -/
def isEffect : TraceOp → Bool
  | .dispatchSpawn _ => true
  | .dispatchDespawn _ => true
  | .postSpawnMessage _ => true
  | .postMissedNotice _ _ => true
  | .deleteMessage _ _ => true
  | .dbWriteUser _ => true
  | .dbWriteGroupUser _ _ => true
  | .dbWriteTopGroups _ => true
  | .sendReply _ => true
  | _ => false

/-! ### Claim resolver (`guess`) -/

/-- Outcome of one `/grab` invocation; `rejectedEmpty`, `rejectedMetachar`
and `wrongGuess` are all `Rejected` in the specification's vocabulary. -/
inductive GuessResult
  | noActiveSpawn | alreadyClaimed | rejectedEmpty | rejectedMetachar | wrongGuess | accepted
deriving DecidableEq

/-- The matching condition of `guess` (source lines 741-748), applied to
the already lowercased joined guess text and the raw character name. -/
def isCorrectGuess (guessText : Str) (name : Str) : Bool :=
  let characterName := toLowerStr name
  let nameParts := pySplit characterName
  (sortTokens nameParts = sortTokens (pySplit guessText))
  || nameParts.any (fun part => part = guessText)
  || guessText = characterName

/-- Matching rule written from the words of the specification (§4.5):
case-insensitive, whitespace-separated tokens; accepted iff the sorted
tokens of the guess equal the sorted tokens of the name, or the guess
equals a single token of the name, or the guess equals the full name. -/
def specMatchRule (g name : Str) : Bool :=
  let gTokens := pySplit (toLowerStr g)
  let nTokens := pySplit (toLowerStr name)
  (sortTokens gTokens = sortTokens nTokens)
  || nTokens.any (fun t => toLowerStr g = t)
  || toLowerStr g = toLowerStr name

/-- Shallow embedding of the `guess` handler (`/grab`).  The whole region
from the `last_characters` membership test to the `first_correct_guesses`
assignment contains no `await`, so under the cooperative scheduler the
entire decision is one atomic step; the post-accept external calls are
recorded as trace operations.  The handler takes the raw `context.args`
token list. -/
def guessStep (chatId userId : Int) (args : List Str) (st : SpawnState) :
    GuessResult × SpawnState × List TraceOp :=
  match st.lastCharacters chatId with
  | none => (.noActiveSpawn, st, [TraceOp.sendReply .noSpawnYet])
  | some ch =>
    if (st.firstCorrectGuesses chatId).isSome then
      (.alreadyClaimed, st, [TraceOp.sendReply .alreadyGrabbed])
    else
      let guessText := toLowerStr (joinArgs args)
      if guessText = [] then
        (.rejectedEmpty, st, [TraceOp.sendReply .providePrompt])
      else if containsSub parSeq guessText || containsSub ampSeq guessText then
        (.rejectedMetachar, st, [TraceOp.sendReply .badWords])
      else if isCorrectGuess guessText ch.name then
        let st1 := { st with
          firstCorrectGuesses := upd st.firstCorrectGuesses chatId (some userId) }
        let delRes : SpawnState × List TraceOp :=
          match st1.spawnMessages chatId with
          | some mid =>
            ({ st1 with spawnMessages := upd st1.spawnMessages chatId none },
             [TraceOp.deleteMessage chatId mid])
          | none => (st1, [])
        let st3 := { delRes.1 with
          spawnMessageLinks := upd delRes.1.spawnMessageLinks chatId none }
        (.accepted, st3,
          TraceOp.writeClaimedBy chatId userId :: delRes.2 ++
          [TraceOp.dbWriteUser userId, TraceOp.dbWriteGroupUser userId chatId,
           TraceOp.dbWriteTopGroups chatId, TraceOp.sendReply .grabSuccess])
      else
        (.wrongGuess, st, [TraceOp.sendReply .wrongName])

/-- A guess whose text is non-empty, free of the rejected metacharacter
sequences, and matching the active character's name: an attempt that can
only resolve `accepted` or `alreadyClaimed`. -/
def validClaimAttempt (args : List Str) (ch : Character) : Prop :=
  toLowerStr (joinArgs args) ≠ [] ∧
  containsSub parSeq (toLowerStr (joinArgs args)) = false ∧
  containsSub ampSeq (toLowerStr (joinArgs args)) = false ∧
  isCorrectGuess (toLowerStr (joinArgs args)) ch.name = true

/-- Sequential execution of a batch of claim attempts.  Because the claim
decision region of `guess` contains no suspension point, any concurrent
set of attempts in the cooperative scheduler executes as some sequential
order of these atomic steps; quantifying over the attempt list covers
every order. -/
def runClaims (chatId : Int) (attempts : List (Int × List Str)) (st : SpawnState) :
    List GuessResult × SpawnState :=
  match attempts with
  | [] => ([], st)
  | (u, args) :: rest =>
    let step := guessStep chatId u args st
    let next := runClaims chatId rest step.2.1
    (step.1 :: next.1, next.2)

/-! ### Spawn scheduler (`message_counter`) -/

/-- Telegram chat types relevant to the scheduler guard. -/
inductive ChatType
  | group | supergroup | privateChat | channel
deriving DecidableEq

/-- Shallow embedding of `message_counter`.  The body from the counter
increment to the spawn dispatch runs inside `async with lock` for the
chat, recorded by the acquire/release trace operations; `hasMsg` models
`update.message or update.edited_message`. -/
def messageCounterStep (ctype : ChatType) (hasMsg : Bool) (chatId : Int)
    (st : SpawnState) : SpawnState × List TraceOp :=
  if ¬ (ctype = ChatType.group ∨ ctype = ChatType.supergroup) then (st, [])
  else if ¬ hasMsg then (st, [])
  else
    let n1 := (st.messageCounts chatId).getD 0 + 1
    let stA := { st with messageCounts := upd st.messageCounts chatId (some n1) }
    let baseOps := [TraceOp.lockAcquire chatId, TraceOp.readCount chatId,
                    TraceOp.writeCount chatId n1, TraceOp.readCount chatId]
    if n1 ≥ MESSAGE_FREQUENCY then
      if (stA.currentlySpawning chatId).getD false = false then
        ({ stA with
            currentlySpawning := upd stA.currentlySpawning chatId (some true),
            messageCounts := upd stA.messageCounts chatId (some 0) },
         baseOps ++ [TraceOp.readSpawning chatId, TraceOp.writeSpawning chatId true,
                     TraceOp.writeCount chatId 0, TraceOp.dispatchSpawn chatId,
                     TraceOp.lockRelease chatId])
      else
        (stA, baseOps ++ [TraceOp.readSpawning chatId, TraceOp.lockRelease chatId])
    else
      (stA, baseOps ++ [TraceOp.lockRelease chatId])

/-! ### Spawn expiry (`despawn_character`) -/

/-- Shallow embedding of the `despawn_character` body after its
`DESPAWN_TIME` sleep.  Both branches clear the same four per-chat
dictionary entries; only the unclaimed branch touches the messaging
layer (`missedMsgId` is the handle the posted missed notice would get).
Message-delete failures are swallowed in the source and the model treats
the calls as succeeding. -/
def despawnStep (chatId : Int) (spawnMsgId : Nat) (character : Character)
    (missedMsgId : Nat) (st : SpawnState) : SpawnState × List TraceOp :=
  let cleared := { st with
    lastCharacters := upd st.lastCharacters chatId none,
    spawnMessages := upd st.spawnMessages chatId none,
    spawnMessageLinks := upd st.spawnMessageLinks chatId none,
    currentlySpawning := upd st.currentlySpawning chatId none }
  if (st.firstCorrectGuesses chatId).isSome then
    (cleared, [])
  else
    (cleared,
     [TraceOp.deleteMessage chatId spawnMsgId,
      TraceOp.postMissedNotice chatId character.id,
      TraceOp.deleteMessage chatId missedMsgId])

/-! ### Character selector (weighted selection inside `send_image`) -/

/-- One entry of the `weighted_choices` list. -/
structure WChoice where
  emoji : Str
  chars : List Character
  chance : ℚ
  isExclusive : Bool
deriving DecidableEq

/-- Append a character to its rarity bucket, preserving Python dict
insertion order of `rarity_pools`. -/
def poolsAdd (pools : List (Str × List Character)) (e : Str) (c : Character) :
    List (Str × List Character) :=
  match pools with
  | [] => [(e, [c])]
  | (e0, cs) :: rest =>
    if e0 = e then (e0, cs ++ [c]) :: rest else (e0, cs) :: poolsAdd rest e c

/-- Partition of the allowed candidates into buckets keyed by the leading
token of the rarity label (`rarity_pools`). -/
def rarityPools (chars : List Character) : List (Str × List Character) :=
  chars.foldl (fun pools ch => poolsAdd pools (rarityEmoji ch.rarity) ch) []

/-- The exclusive-override entry added first to `weighted_choices`, when
the chat has an exclusive setting whose bucket is non-empty; the override
weight defaults to `10.0`. -/
def exclusiveEntries (pools : List (Str × List Character))
    (groupSetting : Option GroupSetting) : List WChoice :=
  match groupSetting with
  | none => []
  | some g =>
    match pools.lookup g.rarityEmoji with
    | some cs => if cs = [] then [] else [⟨g.rarityEmoji, cs, g.chance.getD 10, true⟩]
    | none => []

/-- The entry contributed by one global rarity item: skipped when the tag
is disabled, when it is the exclusive tag, or when its bucket is empty;
the global weight defaults to `5.0`. -/
def globalEntry (groupSetting : Option GroupSetting)
    (pools : List (Str × List Character)) (er : Str × RarityData) : Option WChoice :=
  if er.2.enabled.getD true = false then none
  else if (match groupSetting with
           | some g => decide (er.1 = g.rarityEmoji)
           | none => false) then none
  else
    match pools.lookup er.1 with
    | some cs => if cs = [] then none else some ⟨er.1, cs, er.2.chance.getD 5, false⟩
    | none => none

/-- Loop body of the `weighted_choices` construction: append the entry
when the item survives, otherwise continue. -/
def appendEntry (acc : List WChoice) (w? : Option WChoice) : List WChoice :=
  match w? with
  | some w => acc ++ [w]
  | none => acc

/-- The `weighted_choices` list as the source builds it: the exclusive
entry first, then a loop over the global rarity items appending each
surviving entry. -/
def buildWeightedChoices (pools : List (Str × List Character))
    (groupSetting : Option GroupSetting)
    (globalRarities : List (Str × RarityData)) : List WChoice :=
  globalRarities.foldl
    (fun acc er => appendEntry acc (globalEntry groupSetting pools er))
    (exclusiveEntries pools groupSetting)

/-- The weighted-choice list as the specification words it: the exclusive
override first, followed by an entry for every globally enabled rarity
tag with a non-empty bucket, skipping the exclusive tag. -/
def specWeightedList (pools : List (Str × List Character))
    (groupSetting : Option GroupSetting)
    (globalRarities : List (Str × RarityData)) : List WChoice :=
  exclusiveEntries pools groupSetting ++
    globalRarities.filterMap (globalEntry groupSetting pools)

/-- The roulette walk of `send_image`: accumulate weights and stop at the
first entry whose cumulative weight reaches the draw. -/
def walkChoices : List WChoice → ℚ → ℚ → Option WChoice
  | [], _, _ => none
  | choice :: rest, rand, cumulative =>
    let c2 := cumulative + choice.chance
    if rand ≤ c2 then some choice else walkChoices rest rand c2

/-- Cumulative weight of the entries up to and including index `i`. -/
def cumChance (choices : List WChoice) (i : Nat) : ℚ :=
  ((choices.take (i + 1)).map WChoice.chance).sum

/-- Total weight of the weighted-choice list (`total_chance`). -/
def totalChance (choices : List WChoice) : ℚ :=
  (choices.map WChoice.chance).sum

/-- Spec-side description of the roulette outcome: the first index whose
cumulative weight meets or exceeds the draw. -/
def firstCrossing (choices : List WChoice) (rand : ℚ) : Option Nat :=
  (List.range choices.length).find? (fun i => decide (rand ≤ cumChance choices i))

/-- Shallow embedding of the weighted selection block of `send_image`
(lines 589-656).  `rand` is the value `random.uniform(0, total_chance)`
produced; `pickW` indexes the `random.choice` inside the chosen bucket
and `pickF` the `random.choice` of the uniform fallback. -/
def selectCharacter (allowed : List Character) (groupSetting : Option GroupSetting)
    (globalRarities : List (Str × RarityData)) (rand : ℚ) (pickW pickF : Nat) :
    Character :=
  let pools := rarityPools allowed
  let weightedChoices := buildWeightedChoices pools groupSetting globalRarities
  match (if weightedChoices = [] then none else walkChoices weightedChoices rand 0) with
  | some choice => choice.chars.getD (pickW % choice.chars.length) defaultCharacter
  | none => allowed.getD (pickF % allowed.length) defaultCharacter

/-! ### Spawn pipeline (`send_image`) -/

/-- Rotation bookkeeping of `send_image` (lines 564-577): clear
`sent_characters` once it covers the catalog, filter out recently shown
ids, and fall back to the full catalog (clearing again) if nothing is
left.  Returns the available candidates and the new recently-shown
list. -/
def computeCandidates (allCharacters : List Character) (sentPrev : List Nat) :
    List Character × List Nat :=
  let sent1 := if sentPrev.length ≥ allCharacters.length then [] else sentPrev
  let available0 := allCharacters.filter (fun c => ¬ sent1.contains c.id)
  if available0 = [] then (allCharacters, []) else (available0, sent1)

/-- Shallow embedding of `send_image`.  `catalogFetch` is the outcome of
the catalog query, `postResult` the outcome of posting the spawn message
(its message id on success); `selectionFails` models an exception inside
the weighted-selection `try` block, which the source catches and answers
with the uniform fallback.  Every path of the source body is covered:
empty catalog, no allowed candidates, successful publication, and the
blanket `except` of the handler. -/
def sendImage (chatId : Int) (catalogFetch : Except Unit (List Character))
    (grants : Option (List GrantDoc)) (settings : Option SpawnSettings)
    (groupSetting : Option GroupSetting) (selectionFails : Bool)
    (rand : ℚ) (pickW pickF : Nat) (postResult : Except Unit Nat)
    (st : SpawnState) : SpawnState × List TraceOp :=
  match catalogFetch with
  | Except.error _ =>
    ({ st with currentlySpawning := upd st.currentlySpawning chatId (some false) }, [])
  | Except.ok allCharacters =>
    if allCharacters = [] then
      ({ st with currentlySpawning := upd st.currentlySpawning chatId (some false) }, [])
    else
      let sentPrev := (st.sentCharacters chatId).getD []
      let avs := computeCandidates allCharacters sentPrev
      let allowed := avs.1.filter (fun c => isCharacterAllowed c chatId grants settings)
      if allowed = [] then
        ({ st with
            sentCharacters := upd st.sentCharacters chatId (some avs.2),
            currentlySpawning := upd st.currentlySpawning chatId (some false) }, [])
      else
        let globalRarities := match settings with
          | some s => s.rarities
          | none => []
        let character :=
          if selectionFails then allowed.getD (pickF % allowed.length) defaultCharacter
          else selectCharacter allowed groupSetting globalRarities rand pickW pickF
        let st1 := { st with
          sentCharacters := upd st.sentCharacters chatId (some (avs.2 ++ [character.id])),
          lastCharacters := upd st.lastCharacters chatId (some character),
          firstCorrectGuesses := upd st.firstCorrectGuesses chatId none }
        match postResult with
        | Except.error _ =>
          ({ st1 with currentlySpawning := upd st1.currentlySpawning chatId (some false) }, [])
        | Except.ok msgId =>
          ({ st1 with
              spawnMessages := upd st1.spawnMessages chatId (some msgId),
              spawnMessageLinks := upd st1.spawnMessageLinks chatId (some (chatId, msgId)),
              currentlySpawning := upd st1.currentlySpawning chatId (some false) },
           [TraceOp.postSpawnMessage chatId, TraceOp.dispatchDespawn chatId])

/-- Classifier for lock-acquisition operations in a trace. -/
def isLockAcquireOp : TraceOp → Bool
  | .lockAcquire _ => true
  | _ => false

/-! ### Concrete fixtures for witnesses and counterexamples -/

/-- The Naruto character from the specification's matching examples. -/
def narutoChar : Character :=
  ⟨1, "Naruto Uzumaki".data, "Naruto".data, "🟢 Common".data, false, false⟩

/-- A reserved-tag video character. -/
def videoChar : Character :=
  ⟨2, "Amv One".data, "Mix".data, "🎥 Video".data, true, false⟩

/-- Global settings in which the reserved video tag is disabled. -/
def videoDisabledSettings : SpawnSettings :=
  ⟨[("🎥".data, ⟨some false, some 7⟩)]⟩

/-- A state with an active, unclaimed spawn of `narutoChar` in chat 5,
whose spawn announcement is message 77. -/
def activeState : SpawnState :=
  { emptyState with
    lastCharacters := upd emptyState.lastCharacters 5 (some narutoChar),
    spawnMessages := upd emptyState.spawnMessages 5 (some 77),
    spawnMessageLinks := upd emptyState.spawnMessageLinks 5 (some (5, 77)),
    currentlySpawning := upd emptyState.currentlySpawning 5 (some false) }

/-- The state reached from `activeState` after user 9 claims with the
correct guess `naruto`: exactly what the claim path of `guess` leaves
behind. -/
def claimedState : SpawnState := (guessStep 5 9 ["naruto".data] activeState).2.1

/-- A state whose counter for chat 5 stands one message short of the spawn
threshold. -/
def nearThresholdState : SpawnState :=
  { emptyState with messageCounts := upd emptyState.messageCounts 5 (some 39) }

/-- A second character, in a different rarity bucket, for selection
fixtures. -/
def sasukeChar : Character :=
  ⟨3, "Sasuke Uchiha".data, "Naruto".data, "🔴 Rare".data, false, false⟩

/-- Two-character candidate list spanning two rarity buckets. -/
def allowedTwo : List Character := [narutoChar, sasukeChar]

/-- Exclusive override fixture: tag `🔴` with the default override
weight. -/
def gsRed : Option GroupSetting := some ⟨"🔴".data, none⟩

/-- Global rarity fixture: tag `🟢` enabled with the default weight. -/
def grsGreen : List (Str × RarityData) := [("🟢".data, ⟨none, none⟩)]

/-! ## Theorems -/

/-- Point update reads back the written value at its key. -/
theorem upd_self {α : Type} (f : Int → Option α) (c : Int) (v : Option α) :
    upd f c v c = v := by
  simp [upd]

/-- Point update leaves every other key untouched. -/
theorem upd_ne {α : Type} (f : Int → Option α) (c x : Int) (v : Option α)
    (h : x ≠ c) : upd f c v x = f x := by
  simp [upd, h]

/-- C3: the claim preconditions of `guess` are checked in order — no
active spawn, already claimed, empty guess, forbidden metacharacter
sequences — each short-circuiting with its result, leaving the state
untouched and producing exactly one reply (no database write, no message
deletion, no dispatched task). -/
theorem guess_preconditions_short_circuit (chatId userId : Int) (args : List Str)
    (st : SpawnState) :
    (st.lastCharacters chatId = none →
      guessStep chatId userId args st =
        (.noActiveSpawn, st, [TraceOp.sendReply .noSpawnYet])) ∧
    (∀ ch, st.lastCharacters chatId = some ch →
      (st.firstCorrectGuesses chatId).isSome = true →
      guessStep chatId userId args st =
        (.alreadyClaimed, st, [TraceOp.sendReply .alreadyGrabbed])) ∧
    (∀ ch, st.lastCharacters chatId = some ch →
      st.firstCorrectGuesses chatId = none →
      toLowerStr (joinArgs args) = [] →
      guessStep chatId userId args st =
        (.rejectedEmpty, st, [TraceOp.sendReply .providePrompt])) ∧
    (∀ ch, st.lastCharacters chatId = some ch →
      st.firstCorrectGuesses chatId = none →
      toLowerStr (joinArgs args) ≠ [] →
      (containsSub parSeq (toLowerStr (joinArgs args)) = true ∨
        containsSub ampSeq (toLowerStr (joinArgs args)) = true) →
      guessStep chatId userId args st =
        (.rejectedMetachar, st, [TraceOp.sendReply .badWords])) := by
  refine ⟨?_, ?_, ?_, ?_⟩
  · intro h
    simp [guessStep, h]
  · intro ch h1 h2
    simp [guessStep, h1, h2]
  · intro ch h1 h2 h3
    simp [guessStep, h1, h2, h3]
  · intro ch h1 h2 h3 h4
    rcases h4 with h | h <;> simp [guessStep, h1, h2, h3, h]

/-- Witness for the precondition theorem: chat 5 of the empty state has
no active spawn and the handler answers `noActiveSpawn` with exactly one
reply and no state change. -/
theorem guess_preconditions_short_circuit_witness :
    emptyState.lastCharacters 5 = none ∧
    guessStep 5 9 ["naruto".data] emptyState =
      (.noActiveSpawn, emptyState, [TraceOp.sendReply .noSpawnYet]) :=
  ⟨rfl, (guess_preconditions_short_circuit 5 9 ["naruto".data] emptyState).1 rfl⟩

/-- The specification's wording of the matching rule and the code's
condition compute the same boolean (the code pre-lowercases the joined
guess, the specification lowercases inside the rule). -/
theorem specMatchRule_eq_code (g name : Str) :
    specMatchRule g name = isCorrectGuess (toLowerStr g) name := by
  rw [Bool.eq_iff_iff]
  simp only [specMatchRule, isCorrectGuess, Bool.or_eq_true, decide_eq_true_eq,
    List.any_eq_true]
  constructor
  · rintro ((h | ⟨t, ht, he⟩) | h)
    · exact Or.inl (Or.inl h.symm)
    · exact Or.inl (Or.inr ⟨t, ht, he.symm⟩)
    · exact Or.inr h
  · rintro ((h | ⟨t, ht, he⟩) | h)
    · exact Or.inl (Or.inl h.symm)
    · exact Or.inl (Or.inr ⟨t, ht, he.symm⟩)
    · exact Or.inr h

/-- C2: with an active unclaimed spawn and a non-empty guess free of the
rejected metacharacter sequences, the guess is accepted exactly when the
specification's tolerant matching rule holds; the specification's
`Naruto Uzumaki` examples behave as listed. -/
theorem guess_match_rule :
    (∀ (chatId userId : Int) (args : List Str) (st : SpawnState) (ch : Character),
      st.lastCharacters chatId = some ch →
      st.firstCorrectGuesses chatId = none →
      toLowerStr (joinArgs args) ≠ [] →
      containsSub parSeq (toLowerStr (joinArgs args)) = false →
      containsSub ampSeq (toLowerStr (joinArgs args)) = false →
      ((guessStep chatId userId args st).1 = .accepted ↔
        specMatchRule (joinArgs args) ch.name = true)) ∧
    (guessStep 5 9 ["uzumaki".data, "naruto".data] activeState).1 = .accepted ∧
    (guessStep 5 9 ["naruto".data] activeState).1 = .accepted ∧
    (guessStep 5 9 ["Naruto".data, "Uzumaki".data] activeState).1 = .accepted ∧
    (guessStep 5 9 ["naruto".data, "uzu".data] activeState).1 = .wrongGuess := by
  refine ⟨?_, by decide, by decide, by decide, by decide⟩
  intro chatId userId args st ch h1 h2 h3 hp ha
  rw [specMatchRule_eq_code]
  cases hcg : isCorrectGuess (toLowerStr (joinArgs args)) ch.name <;>
    simp [guessStep, h1, h2, h3, hp, ha, hcg]

/-- Witness for the matching theorem at the out-of-order multi-token
example. -/
theorem guess_match_rule_witness :
    activeState.lastCharacters 5 = some narutoChar ∧
    activeState.firstCorrectGuesses 5 = none ∧
    toLowerStr (joinArgs ["uzumaki".data, "naruto".data]) ≠ [] ∧
    containsSub parSeq (toLowerStr (joinArgs ["uzumaki".data, "naruto".data])) = false ∧
    containsSub ampSeq (toLowerStr (joinArgs ["uzumaki".data, "naruto".data])) = false ∧
    ((guessStep 5 9 ["uzumaki".data, "naruto".data] activeState).1 = .accepted ↔
      specMatchRule (joinArgs ["uzumaki".data, "naruto".data]) narutoChar.name = true) :=
  ⟨by decide, by decide, by decide, by decide, by decide,
    guess_match_rule.1 5 9 ["uzumaki".data, "naruto".data] activeState narutoChar
      (by decide) (by decide) (by decide) (by decide) (by decide)⟩

/-- A claim attempt on an already claimed active spawn answers
`alreadyClaimed` and changes nothing. -/
theorem guessStep_claimed_noop (chatId userId : Int) (args : List Str)
    (st : SpawnState) (ch : Character)
    (h1 : st.lastCharacters chatId = some ch)
    (h2 : (st.firstCorrectGuesses chatId).isSome = true) :
    guessStep chatId userId args st =
      (.alreadyClaimed, st, [TraceOp.sendReply .alreadyGrabbed]) := by
  simp [guessStep, h1, h2]

/-- A valid matching attempt on an active unclaimed spawn is accepted,
records the caller as `claimedBy`, and leaves the active-spawn record in
place. -/
theorem guessStep_accept (chatId userId : Int) (args : List Str)
    (st : SpawnState) (ch : Character)
    (h1 : st.lastCharacters chatId = some ch)
    (h2 : st.firstCorrectGuesses chatId = none)
    (hv : validClaimAttempt args ch) :
    (guessStep chatId userId args st).1 = .accepted ∧
    (guessStep chatId userId args st).2.1.firstCorrectGuesses chatId = some userId ∧
    (guessStep chatId userId args st).2.1.lastCharacters = st.lastCharacters := by
  obtain ⟨hne, hp, ha, hcg⟩ := hv
  cases hsm : st.spawnMessages chatId <;>
    simp [guessStep, h1, h2, hne, hp, ha, hcg, hsm, upd]

/-- Once a chat's spawn is claimed, any further batch of claim attempts
uniformly answers `alreadyClaimed` and leaves the state untouched. -/
theorem runClaims_claimed (chatId : Int) (attempts : List (Int × List Str))
    (st : SpawnState) (ch : Character)
    (h1 : st.lastCharacters chatId = some ch)
    (h2 : (st.firstCorrectGuesses chatId).isSome = true) :
    runClaims chatId attempts st =
      (List.replicate attempts.length .alreadyClaimed, st) := by
  induction attempts with
  | nil => simp [runClaims]
  | cons a rest ih =>
    obtain ⟨u, args⟩ := a
    have hstep := guessStep_claimed_noop chatId u args st ch h1 h2
    simp only [runClaims, hstep]
    simp [ih, List.replicate_succ]

/-- C1 (amended): a batch of valid concurrent claim attempts on an active
unclaimed spawn — executed in an arbitrary order as the atomic await-free
decision steps they are under the cooperative scheduler — resolves the
first attempt `accepted`, every other attempt `alreadyClaimed`, and the
`claimedBy` transition from absent to present is won exactly by the first
caller. -/
theorem guess_first_claim_wins (chatId u0 : Int) (args0 : List Str)
    (rest : List (Int × List Str)) (st : SpawnState) (ch : Character)
    (hact : st.lastCharacters chatId = some ch)
    (hun : st.firstCorrectGuesses chatId = none)
    (hv : validClaimAttempt args0 ch) :
    (runClaims chatId ((u0, args0) :: rest) st).1 =
      GuessResult.accepted :: List.replicate rest.length .alreadyClaimed ∧
    (runClaims chatId ((u0, args0) :: rest) st).1.count GuessResult.accepted = 1 ∧
    (∀ r ∈ (runClaims chatId ((u0, args0) :: rest) st).1,
      r = GuessResult.accepted ∨ r = GuessResult.alreadyClaimed) ∧
    (runClaims chatId ((u0, args0) :: rest) st).2.firstCorrectGuesses chatId = some u0 := by
  obtain ⟨hres, hclaim, hlast⟩ := guessStep_accept chatId u0 args0 st ch hact hun hv
  have h1' : (guessStep chatId u0 args0 st).2.1.lastCharacters chatId = some ch := by
    rw [hlast]; exact hact
  have h2' : ((guessStep chatId u0 args0 st).2.1.firstCorrectGuesses chatId).isSome = true := by
    rw [hclaim]; rfl
  have hrun := runClaims_claimed chatId rest ((guessStep chatId u0 args0 st).2.1) ch h1' h2'
  have hmain : runClaims chatId ((u0, args0) :: rest) st =
      (GuessResult.accepted :: List.replicate rest.length GuessResult.alreadyClaimed,
        (guessStep chatId u0 args0 st).2.1) := by
    simp only [runClaims, hrun, hres]
  rw [hmain]
  refine ⟨rfl, ?_, ?_, hclaim⟩
  · simp [List.count_cons, List.count_replicate]
  · intro r hr
    rcases List.mem_cons.mp hr with h | h
    · exact Or.inl h
    · exact Or.inr (List.eq_of_mem_replicate h)

/-- Witness for the first-claim-wins theorem: two back-to-back correct
guesses by users 9 and 10 resolve accepted then alreadyClaimed. -/
theorem guess_first_claim_wins_witness :
    activeState.lastCharacters 5 = some narutoChar ∧
    activeState.firstCorrectGuesses 5 = none ∧
    validClaimAttempt ["naruto".data] narutoChar ∧
    (runClaims 5 [(9, ["naruto".data]), (10, ["naruto".data])] activeState).1 =
      [GuessResult.accepted, GuessResult.alreadyClaimed] := by
  refine ⟨by decide, by decide, ⟨by decide, by decide, by decide, by decide⟩, ?_⟩
  have h := guess_first_claim_wins 5 9 ["naruto".data] [(10, ["naruto".data])]
    activeState narutoChar (by decide) (by decide)
    ⟨by decide, by decide, by decide, by decide⟩
  simpa using h.1

/-- C1 counterexample to the stated mechanism: a concrete accept run of
the claim path performs the `claimedBy` write while its operation trace
acquires no lock at all, so the claim-accept decision is not serialized
by a per-chat exclusive lock (its atomicity comes from the decision
region having no suspension point). -/
theorem guess_claim_write_without_lock :
    (guessStep 5 9 ["naruto".data] activeState).1 = GuessResult.accepted ∧
    TraceOp.writeClaimedBy 5 9 ∈ (guessStep 5 9 ["naruto".data] activeState).2.2 ∧
    (guessStep 5 9 ["naruto".data] activeState).2.2.any isLockAcquireOp = false ∧
    lockCheck (guessStep 5 9 ["naruto".data] activeState).2.2 = false := by
  decide

/-- C4: the scheduler counts only group/supergroup messages; when the
incremented count reaches the fixed threshold of 40 with the spawning
flag clear, it sets the flag, resets the count to 0 and dispatches the
spawn task; with the flag already set the trigger is skipped; other
chats are untouched; and every access to the count and flag in the trace
happens while that chat's exclusive lock is held. -/
theorem message_counter_spec (ctype : ChatType) (hasMsg : Bool) (chatId : Int)
    (st : SpawnState) :
    (¬ (ctype = ChatType.group ∨ ctype = ChatType.supergroup) →
      messageCounterStep ctype hasMsg chatId st = (st, [])) ∧
    (hasMsg = false → messageCounterStep ctype hasMsg chatId st = (st, [])) ∧
    ((ctype = ChatType.group ∨ ctype = ChatType.supergroup) → hasMsg = true →
      ((st.messageCounts chatId).getD 0 + 1 ≥ MESSAGE_FREQUENCY →
        (st.currentlySpawning chatId).getD false = false →
        (messageCounterStep ctype hasMsg chatId st).1.messageCounts chatId = some 0 ∧
        (messageCounterStep ctype hasMsg chatId st).1.currentlySpawning chatId = some true ∧
        TraceOp.dispatchSpawn chatId ∈ (messageCounterStep ctype hasMsg chatId st).2) ∧
      ((st.messageCounts chatId).getD 0 + 1 ≥ MESSAGE_FREQUENCY →
        (st.currentlySpawning chatId).getD false = true →
        (messageCounterStep ctype hasMsg chatId st).1.messageCounts chatId =
          some ((st.messageCounts chatId).getD 0 + 1) ∧
        (messageCounterStep ctype hasMsg chatId st).1.currentlySpawning =
          st.currentlySpawning ∧
        TraceOp.dispatchSpawn chatId ∉ (messageCounterStep ctype hasMsg chatId st).2) ∧
      ((st.messageCounts chatId).getD 0 + 1 < MESSAGE_FREQUENCY →
        (messageCounterStep ctype hasMsg chatId st).1.messageCounts chatId =
          some ((st.messageCounts chatId).getD 0 + 1) ∧
        (messageCounterStep ctype hasMsg chatId st).1.currentlySpawning =
          st.currentlySpawning ∧
        TraceOp.dispatchSpawn chatId ∉ (messageCounterStep ctype hasMsg chatId st).2) ∧
      (∀ x, x ≠ chatId →
        (messageCounterStep ctype hasMsg chatId st).1.messageCounts x =
          st.messageCounts x ∧
        (messageCounterStep ctype hasMsg chatId st).1.currentlySpawning x =
          st.currentlySpawning x)) ∧
    lockCheck (messageCounterStep ctype hasMsg chatId st).2 = true := by
  refine ⟨?_, ?_, ?_, ?_⟩
  · intro h
    simp [messageCounterStep, h]
  · intro h
    subst h
    by_cases hg : ctype = ChatType.group ∨ ctype = ChatType.supergroup <;>
      simp [messageCounterStep, hg]
  · intro hg hm
    subst hm
    refine ⟨?_, ?_, ?_, ?_⟩
    · intro h40 hsp
      simp [messageCounterStep, hg, h40, hsp, upd]
    · intro h40 hsp
      simp [messageCounterStep, hg, h40, hsp, upd]
    · intro h40
      simp [messageCounterStep, hg, Nat.not_le.mpr h40, upd]
    · intro x hx
      by_cases h40 : (st.messageCounts chatId).getD 0 + 1 ≥ MESSAGE_FREQUENCY
      · by_cases hsp : (st.currentlySpawning chatId).getD false = false <;>
          simp [messageCounterStep, hg, h40, hsp, upd, hx]
      · simp [messageCounterStep, hg, h40, upd, hx]
  · by_cases hg : ctype = ChatType.group ∨ ctype = ChatType.supergroup
    · cases hasMsg with
      | false => simp [messageCounterStep, hg, lockCheck, lockCheckAux]
      | true =>
        by_cases h40 : (st.messageCounts chatId).getD 0 + 1 ≥ MESSAGE_FREQUENCY
        · by_cases hsp : (st.currentlySpawning chatId).getD false = false <;>
            simp [messageCounterStep, hg, h40, hsp, lockCheck, lockCheckAux,
              sharedAccessChat]
        · simp [messageCounterStep, hg, h40, lockCheck, lockCheckAux, sharedAccessChat]
    · simp [messageCounterStep, hg, lockCheck, lockCheckAux]

/-- Witness for the scheduler theorem: chat 5 at count 39 receives a
group message, the counter reaches 40, the flag is set, the count resets
and a spawn task is dispatched. -/
theorem message_counter_spec_witness :
    (ChatType.group = ChatType.group ∨ ChatType.group = ChatType.supergroup) ∧
    (nearThresholdState.messageCounts 5).getD 0 + 1 ≥ MESSAGE_FREQUENCY ∧
    (nearThresholdState.currentlySpawning 5).getD false = false ∧
    ((messageCounterStep ChatType.group true 5 nearThresholdState).1.messageCounts 5 =
      some 0 ∧
     (messageCounterStep ChatType.group true 5 nearThresholdState).1.currentlySpawning 5 =
      some true ∧
     TraceOp.dispatchSpawn 5 ∈ (messageCounterStep ChatType.group true 5 nearThresholdState).2) :=
  ⟨Or.inl rfl, by decide, by decide,
    ((message_counter_spec ChatType.group true 5 nearThresholdState).2.2.1
      (Or.inl rfl) rfl).1 (by decide) (by decide)⟩

/-- C7: every terminating run of the spawn pipeline — publication, abort
for an empty catalog, abort for an empty allowed set, a selection
exception, or a posting exception — leaves the chat's spawning flag
false, so a later threshold crossing can trigger a new spawn attempt. -/
theorem send_image_clears_spawning (chatId : Int)
    (catalogFetch : Except Unit (List Character)) (grants : Option (List GrantDoc))
    (settings : Option SpawnSettings) (groupSetting : Option GroupSetting)
    (selectionFails : Bool) (rand : ℚ) (pickW pickF : Nat)
    (postResult : Except Unit Nat) (st : SpawnState) :
    ((sendImage chatId catalogFetch grants settings groupSetting selectionFails
        rand pickW pickF postResult st).1).currentlySpawning chatId = some false := by
  cases catalogFetch with
  | error e => simp [sendImage, upd]
  | ok allCharacters =>
    by_cases hempty : allCharacters = []
    · simp [sendImage, hempty, upd]
    · by_cases hallowed :
        (computeCandidates allCharacters ((st.sentCharacters chatId).getD [])).1.filter
          (fun c => isCharacterAllowed c chatId grants settings) = []
      · simp [sendImage, hempty, hallowed, upd]
      · cases postResult with
        | error e => simp [sendImage, hempty, hallowed, upd]
        | ok msgId => simp [sendImage, hempty, hallowed, upd]

/-- C8 (amended): when the expiry timer fires on an already claimed
spawn, it deletes no message and posts no missed notice; it does,
however, clear the chat's remaining spawn bookkeeping — the active
character record, the spawn message id, the permalink and the spawning
entry — which the claim path had left in place. -/
theorem despawn_claimed_only_clears (chatId : Int) (spawnMsgId : Nat)
    (character : Character) (missedMsgId : Nat) (st : SpawnState)
    (h : (st.firstCorrectGuesses chatId).isSome = true) :
    despawnStep chatId spawnMsgId character missedMsgId st =
      ({ st with
          lastCharacters := upd st.lastCharacters chatId none,
          spawnMessages := upd st.spawnMessages chatId none,
          spawnMessageLinks := upd st.spawnMessageLinks chatId none,
          currentlySpawning := upd st.currentlySpawning chatId none }, []) := by
  simp [despawnStep, h]

/-- Witness for the claimed-expiry theorem at the concrete post-claim
state. -/
theorem despawn_claimed_only_clears_witness :
    (claimedState.firstCorrectGuesses 5).isSome = true ∧
    despawnStep 5 77 narutoChar 88 claimedState =
      ({ claimedState with
          lastCharacters := upd claimedState.lastCharacters 5 none,
          spawnMessages := upd claimedState.spawnMessages 5 none,
          spawnMessageLinks := upd claimedState.spawnMessageLinks 5 none,
          currentlySpawning := upd claimedState.currentlySpawning 5 none }, []) :=
  ⟨by decide, despawn_claimed_only_clears 5 77 narutoChar 88 claimedState (by decide)⟩

/-- C8 counterexample: at the concrete state the claim path leaves behind
(`claimedState`, where the active-character record is still present), the
expiry run clears that record — state clearing beyond what the claim
path itself performed — while sending and deleting nothing. -/
theorem despawn_after_claim_clears_more :
    (claimedState.firstCorrectGuesses 5).isSome = true ∧
    claimedState.lastCharacters 5 = some narutoChar ∧
    (despawnStep 5 77 narutoChar 88 claimedState).1.lastCharacters 5 = none ∧
    (despawnStep 5 77 narutoChar 88 claimedState).2 = [] := by
  decide

/-- C9: once the recently-shown list covers the catalog (or the catalog
has shrunk to or below its size), the candidate computation clears the
list and returns the full catalog, rather than coming up empty. -/
theorem rotation_resets (allCharacters : List Character) (sentPrev : List Nat)
    (hcover : sentPrev.length ≥ allCharacters.length) (hne : allCharacters ≠ []) :
    computeCandidates allCharacters sentPrev = (allCharacters, []) ∧
    (computeCandidates allCharacters sentPrev).1 ≠ [] := by
  have h1 : computeCandidates allCharacters sentPrev = (allCharacters, []) := by
    simp [computeCandidates, hcover]
  exact ⟨h1, by rw [h1]; exact hne⟩

/-- Witness for the rotation theorem: both catalog characters already
shown, the next computation returns the full catalog with a cleared
rotation list. -/
theorem rotation_resets_witness :
    ([1, 3] : List Nat).length ≥ allowedTwo.length ∧ allowedTwo ≠ [] ∧
    computeCandidates allowedTwo [1, 3] = (allowedTwo, []) :=
  ⟨by decide, by decide, (rotation_resets allowedTwo [1, 3] (by decide) (by decide)).1⟩

/-- C10: a non-removed video character carrying the reserved video tag is
accepted unconditionally in the designated chat: the early return skips
both the cross-chat exclusivity check and the globally-disabled check,
whatever the policy data say. -/
theorem amv_video_early_accept (grants : Option (List GrantDoc))
    (settings : Option SpawnSettings) (ch : Character)
    (hrem : ch.removed = false) (hvid : ch.isVideo = true)
    (htag : rarityEmoji ch.rarity = videoTag) :
    isCharacterAllowed ch AMV_ALLOWED_GROUP_ID grants settings = true := by
  simp [isCharacterAllowed, hrem, hvid, htag]

/-- Witness for the designated-chat video theorem, with the reserved tag
both disabled globally and exclusively granted to a different chat. -/
theorem amv_video_early_accept_witness :
    videoChar.removed = false ∧ videoChar.isVideo = true ∧
    rarityEmoji videoChar.rarity = videoTag ∧
    isCharacterAllowed videoChar AMV_ALLOWED_GROUP_ID
      (some [⟨999, "🎥".data⟩]) (some videoDisabledSettings) = true :=
  ⟨rfl, rfl, by decide,
    amv_video_early_accept (some [⟨999, "🎥".data⟩]) (some videoDisabledSettings)
      videoChar rfl rfl (by decide)⟩

/-- C6 counterexample: a reserved-tag video character in the designated
chat whose tag is disabled in global policy with no exclusive grant — the
claimed characterization says excluded, the allow-filter accepts it (the
video early return skips the disabled-rarity check). -/
theorem allow_filter_characterization_counterexample :
    isCharacterAllowed videoChar AMV_ALLOWED_GROUP_ID (some [])
      (some videoDisabledSettings) = true ∧
    claimExcludes videoChar AMV_ALLOWED_GROUP_ID [] videoDisabledSettings = true := by
  decide

/-- C6 (amended): for a loaded policy provider, a non-zero chat id, and a
grant table holding at most one chat per tag, the allow-filter excludes a
character exactly under the claimed conditions — removed, reserved-tag
video outside the designated chat, globally disabled without an exclusive
grant for this pair, or granted to a different chat — except in the
reserved-video designated-chat case, where the early return accepts
regardless of policy. -/
theorem allow_filter_excludes_iff (ch : Character) (chatId : Int)
    (gs : List GrantDoc) (s : SpawnSettings)
    (hchat : chatId ≠ 0)
    (huniq : ∀ d1 ∈ gs, ∀ d2 ∈ gs,
      d1.rarityEmoji = d2.rarityEmoji → d1.chatId = d2.chatId)
    (hnotamv : ¬ (ch.isVideo = true ∧ rarityEmoji ch.rarity = videoTag ∧
      chatId = AMV_ALLOWED_GROUP_ID)) :
    isCharacterAllowed ch chatId (some gs) (some s) =
      !(claimExcludes ch chatId gs s) := by
  cases hrem : ch.removed with
  | true => simp [isCharacterAllowed, claimExcludes, hrem]
  | false =>
    by_cases hv : ch.isVideo = true ∧ rarityEmoji ch.rarity = videoTag
    · obtain ⟨hv1, hv2⟩ := hv
      have hne : chatId ≠ AMV_ALLOWED_GROUP_ID := fun hc => hnotamv ⟨hv1, hv2, hc⟩
      simp [isCharacterAllowed, claimExcludes, hrem, hv1, hv2, hne]
    · have hc2 : (ch.isVideo && decide (rarityEmoji ch.rarity = videoTag)) = false := by
        cases hiv : ch.isVideo with
        | false => rfl
        | true =>
          simp only [Bool.true_and, decide_eq_false_iff_not]
          exact fun htag => hv ⟨hiv, htag⟩
      by_cases hg1 : hasGrantFor gs chatId (rarityEmoji ch.rarity) = true
      · have hg2 : grantedElsewhere gs chatId (rarityEmoji ch.rarity) = false := by
          by_contra habs
          rw [Bool.not_eq_false] at habs
          unfold grantedElsewhere at habs
          rw [Option.isSome_iff_exists] at habs
          obtain ⟨d2, hd2⟩ := habs
          have hd2mem := List.mem_of_find?_eq_some hd2
          have hd2p := List.find?_some hd2
          have hg1' := hg1
          unfold hasGrantFor at hg1'
          rw [Option.isSome_iff_exists] at hg1'
          obtain ⟨d1, hd1⟩ := hg1'
          have hd1mem := List.mem_of_find?_eq_some hd1
          have hd1p := List.find?_some hd1
          simp only [decide_eq_true_eq] at hd1p hd2p
          exact hd2p.2
            (by rw [huniq d2 hd2mem d1 hd1mem (hd2p.1.trans hd1p.2.symm), hd1p.1])
        have hex1 : ∃ x ∈ gs, x.chatId = chatId ∧ x.rarityEmoji = rarityEmoji ch.rarity := by
          have h := hg1
          unfold hasGrantFor at h
          simpa using h
        simp [isCharacterAllowed, claimExcludes, hrem, hv, hchat, hex1, hc2, hg1, hg2]
      · rw [Bool.not_eq_true] at hg1
        have hex1 : ¬ ∃ x ∈ gs, x.chatId = chatId ∧ x.rarityEmoji = rarityEmoji ch.rarity := by
          have h := hg1
          unfold hasGrantFor at h
          simpa using h
        by_cases hg2 : grantedElsewhere gs chatId (rarityEmoji ch.rarity) = true
        · have hex2 : ∃ x ∈ gs, x.rarityEmoji = rarityEmoji ch.rarity ∧ ¬ x.chatId = chatId := by
            have h := hg2
            unfold grantedElsewhere at h
            simpa using h
          simp [isCharacterAllowed, claimExcludes, hrem, hv, hchat, hex1, hex2, hc2,
            hg1, hg2]
        · rw [Bool.not_eq_true] at hg2
          have hex2 : ¬ ∃ x ∈ gs, x.rarityEmoji = rarityEmoji ch.rarity ∧ ¬ x.chatId = chatId := by
            have h := hg2
            unfold grantedElsewhere at h
            simpa using h
          by_cases hrar : s.rarities = []
          · simp [isCharacterAllowed, claimExcludes, hrem, hv, hchat, hex1, hex2, hc2,
              hg1, hg2, hrar, disabledIn]
          · cases hlook : s.rarities.lookup (rarityEmoji ch.rarity) with
            | none =>
              simp [isCharacterAllowed, claimExcludes, hrem, hv, hchat, hex1, hex2, hc2,
                hg1, hg2, hrar, hlook, disabledIn]
            | some rd =>
              cases hen : rd.enabled.getD true <;>
                simp [isCharacterAllowed, claimExcludes, hrem, hv, hchat, hex1, hex2, hc2,
                  hg1, hg2, hrar, hlook, disabledIn, hen]

/-- Witness for the amended allow-filter characterization: a disabled
tag redeemed by an exclusive grant for this exact chat is allowed and is
not excluded by the claimed conditions. -/
theorem allow_filter_excludes_iff_witness :
    (5 : Int) ≠ 0 ∧
    (∀ d1 ∈ [(⟨5, "🟢".data⟩ : GrantDoc)], ∀ d2 ∈ [(⟨5, "🟢".data⟩ : GrantDoc)],
      d1.rarityEmoji = d2.rarityEmoji → d1.chatId = d2.chatId) ∧
    ¬ (narutoChar.isVideo = true ∧ rarityEmoji narutoChar.rarity = videoTag ∧
      (5 : Int) = AMV_ALLOWED_GROUP_ID) ∧
    isCharacterAllowed narutoChar 5 (some [⟨5, "🟢".data⟩])
        (some ⟨[("🟢".data, ⟨some false, none⟩)]⟩) =
      !(claimExcludes narutoChar 5 [⟨5, "🟢".data⟩] ⟨[("🟢".data, ⟨some false, none⟩)]⟩) :=
  ⟨by decide, by decide, by decide,
    allow_filter_excludes_iff narutoChar 5 [⟨5, "🟢".data⟩]
      ⟨[("🟢".data, ⟨some false, none⟩)]⟩ (by decide) (by decide) (by decide)⟩

/-- Folding append-or-skip over a list equals the base followed by the
list's filterMap: the loop of `send_image` that builds `weighted_choices`
appends exactly the surviving entries in order. -/
theorem foldl_append_filterMap {α : Type} (f : α → Option WChoice) :
    ∀ (l : List α) (base : List WChoice),
      l.foldl (fun acc x => appendEntry acc (f x)) base = base ++ l.filterMap f := by
  intro l
  induction l with
  | nil => intro base; simp
  | cons a rest ih =>
    intro base
    rw [List.foldl_cons]
    cases hfa : f a with
    | none =>
      have hstep : appendEntry base none = base := rfl
      simp only [hstep]
      rw [ih base, List.filterMap_cons, hfa]
    | some w =>
      have hstep : appendEntry base (some w) = base ++ [w] := rfl
      simp only [hstep]
      rw [ih (base ++ [w]), List.filterMap_cons, hfa]
      simp

/-- The `weighted_choices` list the code builds is exactly the
specification's description: exclusive entry first, then the surviving
global entries in order. -/
theorem buildWeightedChoices_eq (pools : List (Str × List Character))
    (groupSetting : Option GroupSetting) (globalRarities : List (Str × RarityData)) :
    buildWeightedChoices pools groupSetting globalRarities =
      specWeightedList pools groupSetting globalRarities := by
  unfold buildWeightedChoices specWeightedList
  exact foldl_append_filterMap (globalEntry groupSetting pools) globalRarities
    (exclusiveEntries pools groupSetting)

/-- Looking up a bucket after one `poolsAdd`: the touched key gains the
appended character, every other key is untouched. -/
theorem lookup_poolsAdd (pools : List (Str × List Character)) (e0 : Str)
    (c : Character) :
    ∀ e, (poolsAdd pools e0 c).lookup e =
      if e = e0 then some (((pools.lookup e0).getD []) ++ [c])
      else pools.lookup e := by
  induction pools with
  | nil =>
    intro e
    by_cases he : e = e0
    · subst he
      simp [poolsAdd, List.lookup, beq_self_eq_true]
    · have hb : (e == e0) = false := beq_eq_false_iff_ne.mpr he
      simp [poolsAdd, List.lookup, he, hb]
  | cons p rest ih =>
    intro e
    obtain ⟨e1, cs⟩ := p
    by_cases h1 : e1 = e0
    · subst h1
      by_cases he : e = e1
      · subst he
        simp [poolsAdd, List.lookup, beq_self_eq_true]
      · have hb : (e == e1) = false := beq_eq_false_iff_ne.mpr he
        simp [poolsAdd, List.lookup, he, hb]
    · have hpa : poolsAdd ((e1, cs) :: rest) e0 c = (e1, cs) :: poolsAdd rest e0 c := by
        simp [poolsAdd, h1]
      rw [hpa]
      by_cases he : e = e1
      · have hb : (e == e1) = true := beq_iff_eq.mpr he
        have hne0 : ¬ e = e0 := fun h => h1 (he.symm.trans h)
        simp [List.lookup, hb, hne0]
      · have hb : (e == e1) = false := beq_eq_false_iff_ne.mpr he
        by_cases he0 : e = e0
        · have hb0 : (e0 == e1) = false :=
            beq_eq_false_iff_ne.mpr (fun h => h1 h.symm)
          simp [List.lookup, hb, hb0, he0, ih e0]
        · simp [List.lookup, hb, he0, ih e]

/-- Bucket contents of the partition fold, for an arbitrary starting
accumulator. -/
theorem lookup_rarityPools_foldl (cs : List Character) :
    ∀ (pools : List (Str × List Character)) (e : Str),
      ((cs.foldl (fun p ch => poolsAdd p (rarityEmoji ch.rarity) ch) pools).lookup e) =
        (match pools.lookup e, cs.filter (fun c => rarityEmoji c.rarity = e) with
         | none, [] => none
         | none, f => some f
         | some b, f => some (b ++ f)) := by
  induction cs with
  | nil =>
    intro pools e
    cases h : pools.lookup e <;> simp [h]
  | cons ch rest ih =>
    intro pools e
    simp only [List.foldl_cons]
    rw [ih (poolsAdd pools (rarityEmoji ch.rarity) ch) e, lookup_poolsAdd]
    by_cases he : e = rarityEmoji ch.rarity
    · rw [if_pos he]
      have hpred : rarityEmoji ch.rarity = e := he.symm
      rw [List.filter_cons_of_pos (by simpa using hpred)]
      subst he
      cases hp : pools.lookup (rarityEmoji ch.rarity) with
      | none => simp
      | some b => simp
    · rw [if_neg he]
      have hpred : ¬ rarityEmoji ch.rarity = e := fun h => he h.symm
      rw [List.filter_cons_of_neg (by simpa using hpred)]

/-- C5 bucket characterization: each bucket of `rarity_pools` holds, in
order, exactly the candidates whose rarity label leads with the bucket
tag. -/
theorem lookup_rarityPools (cs : List Character) (e : Str) :
    (rarityPools cs).lookup e =
      (if cs.filter (fun c => rarityEmoji c.rarity = e) = [] then none
       else some (cs.filter (fun c => rarityEmoji c.rarity = e))) := by
  have h := lookup_rarityPools_foldl cs [] e
  unfold rarityPools
  rw [h]
  cases hf : cs.filter (fun c => rarityEmoji c.rarity = e) with
  | nil => simp [List.lookup]
  | cons a l => simp [List.lookup]

/-- Cumulative weight at index zero of a non-empty choice list. -/
theorem cumChance_cons_zero (c : WChoice) (rest : List WChoice) :
    cumChance (c :: rest) 0 = c.chance := by
  simp [cumChance]

/-- Cumulative weight at a successor index of a non-empty choice list. -/
theorem cumChance_cons_succ (c : WChoice) (rest : List WChoice) (i : Nat) :
    cumChance (c :: rest) (i + 1) = c.chance + cumChance rest i := by
  simp [cumChance, List.take_succ_cons]

/-- The roulette walk, started at an arbitrary accumulated offset, stops
at the first index whose offset cumulative weight reaches the draw. -/
theorem walkChoices_go (W : List WChoice) :
    ∀ (rand acc : ℚ),
      walkChoices W rand acc =
        (((List.range W.length).find?
            (fun i => decide (rand ≤ acc + cumChance W i))).bind
          (fun i => W[i]?)) := by
  induction W with
  | nil => intro rand acc; simp [walkChoices]
  | cons c rest ih =>
    intro rand acc
    simp only [walkChoices, List.length_cons, List.range_succ_eq_map, List.find?_cons,
      cumChance_cons_zero]
    by_cases h0 : rand ≤ acc + c.chance
    · simp [h0]
    · simp only [h0, decide_False, if_neg h0]
      rw [List.find?_map]
      have hpred : ((fun i => decide (rand ≤ acc + cumChance (c :: rest) i)) ∘ Nat.succ) =
          (fun i => decide (rand ≤ acc + c.chance + cumChance rest i)) := by
        funext i
        simp [Function.comp, cumChance_cons_succ, add_assoc]
      rw [hpred, ih rand (acc + c.chance)]
      cases hfind : (List.range rest.length).find?
          (fun i => decide (rand ≤ acc + c.chance + cumChance rest i)) <;>
        simp [hfind]

/-- The roulette walk of the code computes the specification's first
crossing index. -/
theorem walkChoices_spec (W : List WChoice) (rand : ℚ) :
    walkChoices W rand 0 = (firstCrossing W rand).bind (fun i => W[i]?) := by
  rw [walkChoices_go W rand 0]
  unfold firstCrossing
  have hpred : (fun i => decide (rand ≤ 0 + cumChance W i)) =
      (fun i => decide (rand ≤ cumChance W i)) := by
    funext i
    rw [zero_add]
  rw [hpred]

/-- With a draw strictly below the total weight, the first crossing
exists. -/
theorem firstCrossing_isSome (W : List WChoice) (rand : ℚ) (hne : W ≠ [])
    (hlt : rand < totalChance W) : (firstCrossing W rand).isSome = true := by
  unfold firstCrossing
  rw [List.find?_isSome]
  refine ⟨W.length - 1, ?_, ?_⟩
  · rw [List.mem_range]
    exact Nat.sub_lt (List.length_pos.mpr hne) one_pos
  · have hcum : cumChance W (W.length - 1) = totalChance W := by
      unfold cumChance totalChance
      rw [Nat.sub_add_cancel (List.length_pos.mpr hne), List.take_length]
    simpa [hcum] using le_of_lt hlt

/-- C5: the selector buckets the candidates by the leading rarity token;
its weighted list is the exclusive entry followed by the surviving global
entries; with a non-empty list and a draw in `[0, totalWeight)` it
returns the oracle-indexed member of the first bucket whose cumulative
weight meets or exceeds the draw; with an empty list it returns the
oracle-indexed uniform pick over the full candidate list. -/
theorem select_character_spec (allowed : List Character)
    (groupSetting : Option GroupSetting) (globalRarities : List (Str × RarityData))
    (rand : ℚ) (pickW pickF : Nat) :
    (∀ e, (rarityPools allowed).lookup e =
      (if allowed.filter (fun c => rarityEmoji c.rarity = e) = [] then none
       else some (allowed.filter (fun c => rarityEmoji c.rarity = e)))) ∧
    buildWeightedChoices (rarityPools allowed) groupSetting globalRarities =
      specWeightedList (rarityPools allowed) groupSetting globalRarities ∧
    (buildWeightedChoices (rarityPools allowed) groupSetting globalRarities = [] →
      selectCharacter allowed groupSetting globalRarities rand pickW pickF =
        allowed.getD (pickF % allowed.length) defaultCharacter) ∧
    (buildWeightedChoices (rarityPools allowed) groupSetting globalRarities ≠ [] →
      0 ≤ rand →
      rand < totalChance (buildWeightedChoices (rarityPools allowed) groupSetting
        globalRarities) →
      ∃ i choice,
        firstCrossing (buildWeightedChoices (rarityPools allowed) groupSetting
          globalRarities) rand = some i ∧
        (buildWeightedChoices (rarityPools allowed) groupSetting globalRarities)[i]? =
          some choice ∧
        selectCharacter allowed groupSetting globalRarities rand pickW pickF =
          choice.chars.getD (pickW % choice.chars.length) defaultCharacter) := by
  refine ⟨lookup_rarityPools allowed, buildWeightedChoices_eq _ _ _, ?_, ?_⟩
  · intro hW
    simp [selectCharacter, hW]
  · intro hW hnn hlt
    have hsome := firstCrossing_isSome _ rand hW hlt
    rw [Option.isSome_iff_exists] at hsome
    obtain ⟨i, hi⟩ := hsome
    have hilt : i < (buildWeightedChoices (rarityPools allowed) groupSetting
        globalRarities).length := by
      have himem := List.mem_of_find?_eq_some hi
      rwa [List.mem_range] at himem
    obtain ⟨choice, hchoice⟩ :
        ∃ choice, (buildWeightedChoices (rarityPools allowed) groupSetting
          globalRarities)[i]? = some choice :=
      ⟨_, List.getElem?_eq_getElem hilt⟩
    refine ⟨i, choice, hi, hchoice, ?_⟩
    simp [selectCharacter, hW, walkChoices_spec, hi, hchoice]

/-- Witness for the selector theorem: two buckets with weights 10 and 5,
a draw of 12 falling in the second bucket's cumulative range. -/
theorem select_character_spec_witness :
    buildWeightedChoices (rarityPools allowedTwo) gsRed grsGreen ≠ [] ∧
    (0 : ℚ) ≤ 12 ∧
    (12 : ℚ) < totalChance (buildWeightedChoices (rarityPools allowedTwo) gsRed grsGreen) ∧
    (∃ i choice,
      firstCrossing (buildWeightedChoices (rarityPools allowedTwo) gsRed grsGreen) 12 =
        some i ∧
      (buildWeightedChoices (rarityPools allowedTwo) gsRed grsGreen)[i]? = some choice ∧
      selectCharacter allowedTwo gsRed grsGreen 12 0 0 =
        choice.chars.getD (0 % choice.chars.length) defaultCharacter) := by
  have h12 : (12 : ℚ) <
      totalChance (buildWeightedChoices (rarityPools allowedTwo) gsRed grsGreen) := by
    have hW : buildWeightedChoices (rarityPools allowedTwo) gsRed grsGreen =
        [⟨"🔴".data, [sasukeChar], 10, true⟩, ⟨"🟢".data, [narutoChar], 5, false⟩] := by
      decide
    rw [hW]
    norm_num [totalChance]
  exact ⟨by decide, by norm_num, h12,
    (select_character_spec allowedTwo gsRed grsGreen 12 0 0).2.2.2
      (by decide) (by norm_num) h12⟩

end Shivu
